import Mathlib

/-!
Verification of the ipMIDI bridge core (`src/main.py`): the byte-stream MIDI
decoder (`NucleusBridge.parse_midi_bytes`), the encoder used when forwarding
toward multicast (`mido.Message.bytes`), the feedback-echo suppressor
(`msg_key` / `is_echo` / `mark_sent`), the fader translator
(`translate_to_cc` / `translate_from_cc`), and the two forwarding handlers
(`handle_from_nucleus` / `handle_from_daw`).

Machine bytes are modelled as `Nat` (a UDP datagram byte is `< 256`; Python's
`&`, `|`, `<<` on non-negative ints are `Nat.land`, `Nat.lor`,
`Nat.shiftLeft`; `status & 0x0F` is written `status % 16`, which is the same
function on `Nat`). Python floats are modelled as exact rationals, and
Python's `int()` as truncation toward zero. Wall-clock values returned by
`time.time()` are modelled as explicit rational-number parameters.
-/

/-- The mido message variants that `src/main.py` creates or receives: one
constructor per `msg.type` string dispatched on in the source
(`note_off`, `note_on`, `polytouch`, `control_change`, `program_change`,
`aftertouch`, `pitchwheel`, `sysex`, `clock`, `start`, `continue`, `stop`,
`active_sensing`).  7-bit data fields are `Nat`; `pitch` is signed. -/
inductive MidiMessage where
  | note_off (channel note velocity : Nat)
  | note_on (channel note velocity : Nat)
  | polytouch (channel note value : Nat)
  | control_change (channel control value : Nat)
  | program_change (channel program : Nat)
  | aftertouch (channel value : Nat)
  | pitchwheel (channel : Nat) (pitch : Int)
  | sysex (data : List Nat)
  | clock
  | start
  | cont
  | stop
  | active_sensing
  deriving DecidableEq, Repr

/-- Serialization of a message to its canonical byte sequence: models
`mido.Message.bytes()`, the encoder used at `src/main.py:319`
(`data = bytes(out_msg.bytes())`) when forwarding toward multicast. -/
def MidiMessage.bytes : MidiMessage → List Nat
  | .note_off c n v => [0x80 + c, n, v]
  | .note_on c n v => [0x90 + c, n, v]
  | .polytouch c n v => [0xA0 + c, n, v]
  | .control_change c k v => [0xB0 + c, k, v]
  | .program_change c p => [0xC0 + c, p]
  | .aftertouch c v => [0xD0 + c, v]
  | .pitchwheel c p => [0xE0 + c, (p + 8192).toNat % 128, (p + 8192).toNat / 128]
  | .sysex d => 0xF0 :: (d ++ [0xF7])
  | .clock => [0xF8]
  | .start => [0xFA]
  | .cont => [0xFB]
  | .stop => [0xFC]
  | .active_sensing => [0xFE]

/-- True exactly on the message variants whose field ranges mido accepts
(channel 0-15, 7-bit data 0-127, pitch -8192..8191) and — following the
spec's data model — with NoteOn velocity 1-127 (a velocity-0 NoteOn is
never produced by the decoder, which reports it as NoteOff). -/
def valid_msg : MidiMessage → Bool
  | .note_off c n v => decide (c ≤ 15 ∧ n ≤ 127 ∧ v ≤ 127)
  | .note_on c n v => decide (c ≤ 15 ∧ n ≤ 127 ∧ 1 ≤ v ∧ v ≤ 127)
  | .polytouch c n v => decide (c ≤ 15 ∧ n ≤ 127 ∧ v ≤ 127)
  | .control_change c k v => decide (c ≤ 15 ∧ k ≤ 127 ∧ v ≤ 127)
  | .program_change c p => decide (c ≤ 15 ∧ p ≤ 127)
  | .aftertouch c v => decide (c ≤ 15 ∧ v ≤ 127)
  | .pitchwheel c p => decide (c ≤ 15 ∧ -8192 ≤ p ∧ p ≤ 8191)
  | .sysex d => d.all (fun b => decide (b ≤ 127))
  | _ => true

/-- True on the SysEx variant only. -/
def is_sysex : MidiMessage → Bool
  | .sysex _ => true
  | _ => false

/-- Raw MIDI decoder, translated from `NucleusBridge.parse_midi_bytes`
(`src/main.py:172-258`).  The Python code builds `mido.Message` values, and
mido's constructor validates every data field (raising `ValueError` on an
out-of-range value, e.g. a data byte above 127, or a 14-bit pitch above
8191); a raised exception aborts the whole call, so the result is modelled
as `Option`: `none` is a raise, `some msgs` a normal return.  The guards on
the recognized-status ranges, the insufficient-bytes `break`s (returning the
messages decoded so far — here `some []` composed through `Option.map`),
the NoteOn-velocity-0-to-NoteOff rule, the SysEx scan for a terminating
0xF7, and the one-byte skip of an unrecognized status byte all mirror the
source line for line. -/
def parse_midi_bytes : List Nat → Option (List MidiMessage)
  | [] => some []
  | status :: rest =>
    if 0x80 ≤ status ∧ status ≤ 0x8F then
      match rest with
      | d1 :: d2 :: rest2 =>
        if d1 ≤ 127 ∧ d2 ≤ 127 then
          (parse_midi_bytes rest2).map (MidiMessage.note_off (status % 16) d1 d2 :: ·)
        else none
      | _ => some []
    else if 0x90 ≤ status ∧ status ≤ 0x9F then
      match rest with
      | d1 :: d2 :: rest2 =>
        if d1 ≤ 127 ∧ d2 ≤ 127 then
          (parse_midi_bytes rest2).map
            ((if d2 = 0 then MidiMessage.note_off (status % 16) d1 0
              else MidiMessage.note_on (status % 16) d1 d2) :: ·)
        else none
      | _ => some []
    else if 0xA0 ≤ status ∧ status ≤ 0xAF then
      match rest with
      | d1 :: d2 :: rest2 =>
        if d1 ≤ 127 ∧ d2 ≤ 127 then
          (parse_midi_bytes rest2).map (MidiMessage.polytouch (status % 16) d1 d2 :: ·)
        else none
      | _ => some []
    else if 0xB0 ≤ status ∧ status ≤ 0xBF then
      match rest with
      | d1 :: d2 :: rest2 =>
        if d1 ≤ 127 ∧ d2 ≤ 127 then
          (parse_midi_bytes rest2).map (MidiMessage.control_change (status % 16) d1 d2 :: ·)
        else none
      | _ => some []
    else if 0xC0 ≤ status ∧ status ≤ 0xCF then
      match rest with
      | d1 :: rest2 =>
        if d1 ≤ 127 then
          (parse_midi_bytes rest2).map (MidiMessage.program_change (status % 16) d1 :: ·)
        else none
      | _ => some []
    else if 0xD0 ≤ status ∧ status ≤ 0xDF then
      match rest with
      | d1 :: rest2 =>
        if d1 ≤ 127 then
          (parse_midi_bytes rest2).map (MidiMessage.aftertouch (status % 16) d1 :: ·)
        else none
      | _ => some []
    else if 0xE0 ≤ status ∧ status ≤ 0xEF then
      match rest with
      | d1 :: d2 :: rest2 =>
        if -8192 ≤ ((d1 ||| (d2 <<< 7) : Nat) : Int) - 8192 ∧
            ((d1 ||| (d2 <<< 7) : Nat) : Int) - 8192 ≤ 8191 then
          (parse_midi_bytes rest2).map
            (MidiMessage.pitchwheel (status % 16) (((d1 ||| (d2 <<< 7) : Nat) : Int) - 8192) :: ·)
        else none
      | _ => some []
    else if status = 0xF0 then
      match List.findIdx? (fun b => b == 0xF7) rest with
      | some j =>
        if (rest.take j).all (fun b => decide (b ≤ 127)) then
          (parse_midi_bytes (rest.drop (j + 1))).map (MidiMessage.sysex (rest.take j) :: ·)
        else none
      | none => some []
    else if status = 0xF8 then (parse_midi_bytes rest).map (MidiMessage.clock :: ·)
    else if status = 0xFA then (parse_midi_bytes rest).map (MidiMessage.start :: ·)
    else if status = 0xFB then (parse_midi_bytes rest).map (MidiMessage.cont :: ·)
    else if status = 0xFC then (parse_midi_bytes rest).map (MidiMessage.stop :: ·)
    else if status = 0xFE then (parse_midi_bytes rest).map (MidiMessage.active_sensing :: ·)
    else parse_midi_bytes rest
  termination_by l => l.length
  decreasing_by all_goals simp_all [List.length_drop] <;> omega

/-- Status bytes that `parse_midi_bytes` dispatches on (every branch except
the final one-byte skip): channel-voice ranges 0x80-0xEF, SysEx 0xF0 and
the recognized realtime bytes. -/
def recognized_status (b : Nat) : Bool :=
  decide ((0x80 ≤ b ∧ b ≤ 0xEF) ∨ b = 0xF0 ∨ b = 0xF8 ∨ b = 0xFA ∨ b = 0xFB ∨ b = 0xFC ∨ b = 0xFE)

/-- Hashable echo-lookup keys: the tuples returned by `NucleusBridge.msg_key`
(`src/main.py:142-153`): `('note_on', ch, note, vel)`, `('note_off', ch,
note)`, `('cc', ch, control, value)`, `('pitch', ch)`. -/
inductive MsgKey where
  | note_on (channel note velocity : Nat)
  | note_off (channel note : Nat)
  | cc (channel control value : Nat)
  | pitch (channel : Nat)
  deriving DecidableEq, Repr

/-- `NucleusBridge.msg_key` (`src/main.py:142-153`): the MessageIdentity of a
message, `none` for every type other than the four keyed ones. -/
def msg_key : MidiMessage → Option MsgKey
  | .note_on c n v => some (.note_on c n v)
  | .note_off c n _ => some (.note_off c n)
  | .control_change c k v => some (.cc c k v)
  | .pitchwheel c _ => some (.pitch c)
  | _ => none

/-- Association-list lookup with decidable key equality; models reading a
Python dict (`recent_dict[key]`, `FADER_CC_MAP[channel]`). -/
def dict_lookup {α β : Type} [DecidableEq α] (k : α) : List (α × β) → Option β
  | [] => none
  | (k', v) :: rest => if k = k' then some v else dict_lookup k rest

/-- An EchoRecord: one direction's `recent_to_daw` / `recent_to_nucleus`
dict mapping MessageIdentity to the last-send timestamp.  Overwriting a key
is modelled by prepending (lookup finds the newest entry first). -/
abbrev EchoRecord : Type := List (MsgKey × ℚ)

/-- `self.debounce_time = 0.05` (`src/main.py:140`), as an exact rational. -/
def debounce_time : ℚ := 0.05

/-- `TRANSLATE_TO_CC = False` (`src/main.py:53`). -/
def TRANSLATE_TO_CC : Bool := false

/-- `FADER_CC_MAP` (`src/main.py:57-67`): pitchwheel channel 0-8 to CC
number 1-9, in source (insertion) order. -/
def FADER_CC_MAP : List (Nat × Nat) :=
  [(0, 1), (1, 2), (2, 3), (3, 4), (4, 5), (5, 6), (6, 7), (7, 8), (8, 9)]

/-- `NucleusBridge.is_echo` (`src/main.py:155-164`): the message is an echo
when its key is present in the direction's EchoRecord with a timestamp less
than `debounce_time` ago.  `now` models the `time.time()` call. -/
def is_echo (msg : MidiMessage) (recent : EchoRecord) (now : ℚ) : Bool :=
  match msg_key msg with
  | none => false
  | some key =>
    match dict_lookup key recent with
    | none => false
    | some t => decide (now - t < debounce_time)

/-- `NucleusBridge.mark_sent` (`src/main.py:166-170`): record the key with
the current time; a keyless message leaves the record unchanged. -/
def mark_sent (msg : MidiMessage) (recent : EchoRecord) (now : ℚ) : EchoRecord :=
  match msg_key msg with
  | none => recent
  | some key => (key, now) :: recent

/-- Python `int()` applied to an exact rational: truncation toward zero. -/
def pyTrunc (q : ℚ) : Int := Int.tdiv q.num (q.den : Int)

/-- `NucleusBridge.translate_to_cc` (`src/main.py:260-268`): a pitchwheel on
a `FADER_CC_MAP` channel becomes `control_change` on channel 0 with
`cc_value = int((pitch + 8192) / 16383 * 127)` clamped to [0,127]; anything
else is returned unchanged. -/
def translate_to_cc (msg : MidiMessage) : MidiMessage :=
  match msg with
  | .pitchwheel c p =>
    match dict_lookup c FADER_CC_MAP with
    | some cc_num =>
      let cc_value : Int := pyTrunc ((((p : ℚ) + 8192) / 16383) * 127)
      .control_change 0 cc_num (max 0 (min 127 cc_value)).toNat
    | none => msg
  | _ => msg

/-- `NucleusBridge.translate_from_cc` (`src/main.py:270-279`): a
`control_change` whose control number is a `FADER_CC_MAP` value becomes a
pitchwheel on the first map channel carrying that number, with
`pitch = int(value / 127 * 16383) - 8192`; anything else is returned
unchanged.  (`control in FADER_CC_MAP.values()` followed by the first-match
loop over `FADER_CC_MAP.items()` is exactly `List.find?` on the pairs.) -/
def translate_from_cc (msg : MidiMessage) : MidiMessage :=
  match msg with
  | .control_change _ k v =>
    match FADER_CC_MAP.find? (fun pr => pr.2 == k) with
    | some (channel, _) =>
      .pitchwheel channel (pyTrunc (((v : ℚ) / 127) * 16383) - 8192)
    | none => msg
  | _ => msg

/-- The bridge's mutable state (`NucleusBridge.__init__`,
`src/main.py:128-140`): the two EchoRecords, the two counters, whether the
virtual output port is open (`self.midi_out`), and how many ipMIDI send
sockets were configured (`len(self.senders)`). -/
structure BridgeState where
  recent_to_daw : EchoRecord
  recent_to_nucleus : EchoRecord
  rx_count : Nat
  tx_count : Nat
  midi_out : Bool
  senders : Nat

/-- One iteration of the message loop in `NucleusBridge.handle_from_nucleus`
(`src/main.py:284-298`): count, drop echoes of things recently sent toward
the Nucleus, optionally translate, then emit to the virtual port and mark
`recent_to_daw`.  `tc` and `tm` model the `time.time()` calls inside
`is_echo` and `mark_sent`.  Returns the new state and the message emitted
to the virtual port, if any. -/
def nucleus_step (S : BridgeState) (msg : MidiMessage) (tc tm : ℚ) :
    BridgeState × Option MidiMessage :=
  let S1 : BridgeState := { S with rx_count := S.rx_count + 1 }
  if is_echo msg S1.recent_to_nucleus tc then (S1, none)
  else
    let out := if TRANSLATE_TO_CC then translate_to_cc msg else msg
    if S1.midi_out then
      ({ S1 with recent_to_daw := mark_sent out S1.recent_to_daw tm }, some out)
    else (S1, none)

/-- The `for msg in messages` loop of `handle_from_nucleus`, threading the
state and collecting the messages emitted to the virtual port; `ts` supplies
the wall-clock readings of each iteration. -/
def nucleus_loop : BridgeState → List MidiMessage → List (ℚ × ℚ) →
    BridgeState × List MidiMessage
  | S, [], _ => (S, [])
  | S, m :: ms, ts =>
    let t := ts.headD (0, 0)
    let r1 := nucleus_step S m t.1 t.2
    let r2 := nucleus_loop r1.1 ms ts.tail
    (r2.1, r1.2.toList ++ r2.2)

/-- `NucleusBridge.handle_from_nucleus` (`src/main.py:281-304`): decode the
datagram, then run the per-message loop.  When `parse_midi_bytes` raises
(modelled `none`), the exception propagates out before the loop runs and is
caught by the receive loop (`src/main.py:97-99`), so the state is unchanged
and nothing is emitted. -/
def handle_from_nucleus (S : BridgeState) (data : List Nat) (ts : List (ℚ × ℚ)) :
    BridgeState × List MidiMessage :=
  match parse_midi_bytes data with
  | none => (S, [])
  | some msgs => nucleus_loop S msgs ts

/-- `NucleusBridge.handle_from_daw` (`src/main.py:306-328`): count, drop
echoes of things recently sent toward the DAW, optionally translate, encode
and send on every configured sender, then mark `recent_to_nucleus`.
Returns the new state and the list of datagrams transmitted (one per send
socket). -/
def handle_from_daw (S : BridgeState) (msg : MidiMessage) (tc tm : ℚ) :
    BridgeState × List (List Nat) :=
  let S1 : BridgeState := { S with tx_count := S.tx_count + 1 }
  if is_echo msg S1.recent_to_daw tc then (S1, [])
  else
    let out := if TRANSLATE_TO_CC then translate_from_cc msg else msg
    let data := out.bytes
    ({ S1 with recent_to_nucleus := mark_sent out S1.recent_to_nucleus tm },
     List.replicate S1.senders data)

/-- True on the message variants to which `msg_key` assigns no identity:
everything except NoteOn, NoteOff, ControlChange and PitchBend. -/
def keyless_type : MidiMessage → Bool
  | .note_on _ _ _ => false
  | .note_off _ _ _ => false
  | .control_change _ _ _ => false
  | .pitchwheel _ _ => false
  | _ => true

/-- True on the PitchBend variant only. -/
def is_pitchwheel : MidiMessage → Bool
  | .pitchwheel _ _ => true
  | _ => false

/-! ### Helper lemmas -/

/-- Splitting a 14-bit value: when the low byte is 7-bit, the decoder's
`data[i+1] | (data[i+2] << 7)` is plain positional arithmetic. -/
lemma lor_shiftLeft_seven (d1 d2 : Nat) (h : d1 < 128) :
    d1 ||| (d2 <<< 7) = d1 + 128 * d2 := by
  apply Nat.eq_of_testBit_eq
  intro i
  rcases Nat.lt_or_ge i 7 with hi | hi
  · have hmod : (d1 + 128 * d2) % 2 ^ 7 = d1 := by norm_num; omega
    have hr := Nat.testBit_mod_two_pow (d1 + 128 * d2) 7 i
    rw [hmod] at hr
    have hge : ¬ (i ≥ 7) := by omega
    rw [Nat.testBit_lor, Nat.testBit_shiftLeft, hr]
    simp [hi, hge]
  · have hd1 : d1.testBit i = false := by
      apply Nat.testBit_lt_two_pow
      calc d1 < 128 := h
        _ = 2 ^ 7 := by norm_num
        _ ≤ 2 ^ i := Nat.pow_le_pow_right (by norm_num) hi
    have hdiv : (d1 + 128 * d2) >>> 7 = d2 := by
      rw [Nat.shiftRight_eq_div_pow]
      norm_num
      omega
    have hr := @Nat.testBit_shiftRight 7 (i - 7) (d1 + 128 * d2)
    rw [hdiv] at hr
    have hi7 : 7 + (i - 7) = i := by omega
    rw [hi7] at hr
    rw [Nat.testBit_lor, Nat.testBit_shiftLeft, hd1, ← hr]
    simp [hi]

/-- On a non-negative rational, Python `int()` (truncation) is the floor. -/
lemma pyTrunc_eq_floor (q : ℚ) (h : 0 ≤ q) : pyTrunc q = ⌊q⌋ := by
  unfold pyTrunc
  rw [Rat.floor_def]
  exact Int.tdiv_eq_ediv (Rat.num_nonneg.mpr h) (by positivity)

lemma parse_cons_note_off (c n v : Nat) (hc : c ≤ 15) (hn : n ≤ 127) (hv : v ≤ 127)
    (rest : List Nat) :
    parse_midi_bytes ((0x80 + c) :: n :: v :: rest) =
      (parse_midi_bytes rest).map (MidiMessage.note_off c n v :: ·) := by
  rw [parse_midi_bytes.eq_def]
  have h1 : 0x80 ≤ 0x80 + c ∧ 0x80 + c ≤ 0x8F := by omega
  have h2 : (0x80 + c) % 16 = c := by omega
  simp only [if_pos h1, h2, if_pos (And.intro hn hv)]

lemma parse_cons_note_on (c n v : Nat) (hc : c ≤ 15) (hn : n ≤ 127) (hv : v ≤ 127)
    (rest : List Nat) :
    parse_midi_bytes ((0x90 + c) :: n :: v :: rest) =
      (parse_midi_bytes rest).map
        ((if v = 0 then MidiMessage.note_off c n 0 else MidiMessage.note_on c n v) :: ·) := by
  rw [parse_midi_bytes.eq_def]
  have n1 : ¬ (0x80 ≤ 0x90 + c ∧ 0x90 + c ≤ 0x8F) := by omega
  have h1 : 0x90 ≤ 0x90 + c ∧ 0x90 + c ≤ 0x9F := by omega
  have h2 : (0x90 + c) % 16 = c := by omega
  simp only [if_neg n1, if_pos h1, h2, if_pos (And.intro hn hv)]

lemma parse_cons_polytouch (c n v : Nat) (hc : c ≤ 15) (hn : n ≤ 127) (hv : v ≤ 127)
    (rest : List Nat) :
    parse_midi_bytes ((0xA0 + c) :: n :: v :: rest) =
      (parse_midi_bytes rest).map (MidiMessage.polytouch c n v :: ·) := by
  rw [parse_midi_bytes.eq_def]
  have n1 : ¬ (0x80 ≤ 0xA0 + c ∧ 0xA0 + c ≤ 0x8F) := by omega
  have n2 : ¬ (0x90 ≤ 0xA0 + c ∧ 0xA0 + c ≤ 0x9F) := by omega
  have h1 : 0xA0 ≤ 0xA0 + c ∧ 0xA0 + c ≤ 0xAF := by omega
  have h2 : (0xA0 + c) % 16 = c := by omega
  simp only [if_neg n1, if_neg n2, if_pos h1, h2, if_pos (And.intro hn hv)]

lemma parse_cons_control_change (c k v : Nat) (hc : c ≤ 15) (hk : k ≤ 127) (hv : v ≤ 127)
    (rest : List Nat) :
    parse_midi_bytes ((0xB0 + c) :: k :: v :: rest) =
      (parse_midi_bytes rest).map (MidiMessage.control_change c k v :: ·) := by
  rw [parse_midi_bytes.eq_def]
  have n1 : ¬ (0x80 ≤ 0xB0 + c ∧ 0xB0 + c ≤ 0x8F) := by omega
  have n2 : ¬ (0x90 ≤ 0xB0 + c ∧ 0xB0 + c ≤ 0x9F) := by omega
  have n3 : ¬ (0xA0 ≤ 0xB0 + c ∧ 0xB0 + c ≤ 0xAF) := by omega
  have h1 : 0xB0 ≤ 0xB0 + c ∧ 0xB0 + c ≤ 0xBF := by omega
  have h2 : (0xB0 + c) % 16 = c := by omega
  simp only [if_neg n1, if_neg n2, if_neg n3, if_pos h1, h2, if_pos (And.intro hk hv)]

lemma parse_cons_program_change (c p : Nat) (hc : c ≤ 15) (hp : p ≤ 127) (rest : List Nat) :
    parse_midi_bytes ((0xC0 + c) :: p :: rest) =
      (parse_midi_bytes rest).map (MidiMessage.program_change c p :: ·) := by
  rw [parse_midi_bytes.eq_def]
  have n1 : ¬ (0x80 ≤ 0xC0 + c ∧ 0xC0 + c ≤ 0x8F) := by omega
  have n2 : ¬ (0x90 ≤ 0xC0 + c ∧ 0xC0 + c ≤ 0x9F) := by omega
  have n3 : ¬ (0xA0 ≤ 0xC0 + c ∧ 0xC0 + c ≤ 0xAF) := by omega
  have n4 : ¬ (0xB0 ≤ 0xC0 + c ∧ 0xC0 + c ≤ 0xBF) := by omega
  have h1 : 0xC0 ≤ 0xC0 + c ∧ 0xC0 + c ≤ 0xCF := by omega
  have h2 : (0xC0 + c) % 16 = c := by omega
  simp only [if_neg n1, if_neg n2, if_neg n3, if_neg n4, if_pos h1, h2, if_pos hp]

lemma parse_cons_aftertouch (c v : Nat) (hc : c ≤ 15) (hv : v ≤ 127) (rest : List Nat) :
    parse_midi_bytes ((0xD0 + c) :: v :: rest) =
      (parse_midi_bytes rest).map (MidiMessage.aftertouch c v :: ·) := by
  rw [parse_midi_bytes.eq_def]
  have n1 : ¬ (0x80 ≤ 0xD0 + c ∧ 0xD0 + c ≤ 0x8F) := by omega
  have n2 : ¬ (0x90 ≤ 0xD0 + c ∧ 0xD0 + c ≤ 0x9F) := by omega
  have n3 : ¬ (0xA0 ≤ 0xD0 + c ∧ 0xD0 + c ≤ 0xAF) := by omega
  have n4 : ¬ (0xB0 ≤ 0xD0 + c ∧ 0xD0 + c ≤ 0xBF) := by omega
  have n5 : ¬ (0xC0 ≤ 0xD0 + c ∧ 0xD0 + c ≤ 0xCF) := by omega
  have h1 : 0xD0 ≤ 0xD0 + c ∧ 0xD0 + c ≤ 0xDF := by omega
  have h2 : (0xD0 + c) % 16 = c := by omega
  simp only [if_neg n1, if_neg n2, if_neg n3, if_neg n4, if_neg n5, if_pos h1, h2, if_pos hv]

lemma parse_cons_pitchwheel (c d1 d2 : Nat) (hc : c ≤ 15) (h1 : d1 ≤ 127) (h2 : d2 ≤ 127)
    (rest : List Nat) :
    parse_midi_bytes ((0xE0 + c) :: d1 :: d2 :: rest) =
      (parse_midi_bytes rest).map
        (MidiMessage.pitchwheel c (((d1 + 128 * d2 : Nat) : Int) - 8192) :: ·) := by
  rw [parse_midi_bytes.eq_def]
  have n1 : ¬ (0x80 ≤ 0xE0 + c ∧ 0xE0 + c ≤ 0x8F) := by omega
  have n2 : ¬ (0x90 ≤ 0xE0 + c ∧ 0xE0 + c ≤ 0x9F) := by omega
  have n3 : ¬ (0xA0 ≤ 0xE0 + c ∧ 0xE0 + c ≤ 0xAF) := by omega
  have n4 : ¬ (0xB0 ≤ 0xE0 + c ∧ 0xE0 + c ≤ 0xBF) := by omega
  have n5 : ¬ (0xC0 ≤ 0xE0 + c ∧ 0xE0 + c ≤ 0xCF) := by omega
  have n6 : ¬ (0xD0 ≤ 0xE0 + c ∧ 0xE0 + c ≤ 0xDF) := by omega
  have h7 : 0xE0 ≤ 0xE0 + c ∧ 0xE0 + c ≤ 0xEF := by omega
  have hm : (0xE0 + c) % 16 = c := by omega
  have hl : d1 ||| (d2 <<< 7) = d1 + 128 * d2 := lor_shiftLeft_seven d1 d2 (by omega)
  simp only [if_neg n1, if_neg n2, if_neg n3, if_neg n4, if_neg n5, if_neg n6, if_pos h7,
    hm, hl]
  split
  · rfl
  · omega

lemma parse_cons_clock (rest : List Nat) :
    parse_midi_bytes (0xF8 :: rest) = (parse_midi_bytes rest).map (MidiMessage.clock :: ·) := by
  rw [parse_midi_bytes.eq_def]
  norm_num

lemma parse_cons_start (rest : List Nat) :
    parse_midi_bytes (0xFA :: rest) = (parse_midi_bytes rest).map (MidiMessage.start :: ·) := by
  rw [parse_midi_bytes.eq_def]
  norm_num

lemma parse_cons_cont (rest : List Nat) :
    parse_midi_bytes (0xFB :: rest) = (parse_midi_bytes rest).map (MidiMessage.cont :: ·) := by
  rw [parse_midi_bytes.eq_def]
  norm_num

lemma parse_cons_stop (rest : List Nat) :
    parse_midi_bytes (0xFC :: rest) = (parse_midi_bytes rest).map (MidiMessage.stop :: ·) := by
  rw [parse_midi_bytes.eq_def]
  norm_num

lemma parse_cons_active_sensing (rest : List Nat) :
    parse_midi_bytes (0xFE :: rest) =
      (parse_midi_bytes rest).map (MidiMessage.active_sensing :: ·) := by
  rw [parse_midi_bytes.eq_def]
  norm_num

/-- An unrecognized status byte is skipped one byte at a time. -/
lemma parse_skip (b : Nat) (hb : recognized_status b = false) (rest : List Nat) :
    parse_midi_bytes (b :: rest) = parse_midi_bytes rest := by
  simp only [recognized_status, decide_eq_false_iff_not, not_or] at hb
  obtain ⟨hr, h0, h8, hA, hB, hC, hE⟩ := hb
  rw [parse_midi_bytes.eq_def]
  have n1 : ¬ (0x80 ≤ b ∧ b ≤ 0x8F) := by omega
  have n2 : ¬ (0x90 ≤ b ∧ b ≤ 0x9F) := by omega
  have n3 : ¬ (0xA0 ≤ b ∧ b ≤ 0xAF) := by omega
  have n4 : ¬ (0xB0 ≤ b ∧ b ≤ 0xBF) := by omega
  have n5 : ¬ (0xC0 ≤ b ∧ b ≤ 0xCF) := by omega
  have n6 : ¬ (0xD0 ≤ b ∧ b ≤ 0xDF) := by omega
  have n7 : ¬ (0xE0 ≤ b ∧ b ≤ 0xEF) := by omega
  simp only [if_neg n1, if_neg n2, if_neg n3, if_neg n4, if_neg n5, if_neg n6, if_neg n7,
    if_neg h0, if_neg h8, if_neg hA, if_neg hB, if_neg hC, if_neg hE]

/-- Decoding one canonically encoded valid non-SysEx message at the head of
a buffer yields that message followed by the decode of the remainder. -/
lemma parse_cons_valid (m : MidiMessage) (hv : valid_msg m = true) (hs : is_sysex m = false)
    (rest : List Nat) :
    parse_midi_bytes (m.bytes ++ rest) = (parse_midi_bytes rest).map (m :: ·) := by
  cases m with
  | note_off c n v =>
    simp only [valid_msg, decide_eq_true_eq] at hv
    exact parse_cons_note_off c n v hv.1 hv.2.1 hv.2.2 rest
  | note_on c n v =>
    simp only [valid_msg, decide_eq_true_eq] at hv
    rw [MidiMessage.bytes, List.cons_append, List.cons_append, List.cons_append,
      List.nil_append, parse_cons_note_on c n v hv.1 hv.2.1 hv.2.2.2 rest,
      if_neg (by omega : ¬ v = 0)]
  | polytouch c n v =>
    simp only [valid_msg, decide_eq_true_eq] at hv
    exact parse_cons_polytouch c n v hv.1 hv.2.1 hv.2.2 rest
  | control_change c k v =>
    simp only [valid_msg, decide_eq_true_eq] at hv
    exact parse_cons_control_change c k v hv.1 hv.2.1 hv.2.2 rest
  | program_change c p =>
    simp only [valid_msg, decide_eq_true_eq] at hv
    exact parse_cons_program_change c p hv.1 hv.2 rest
  | aftertouch c v =>
    simp only [valid_msg, decide_eq_true_eq] at hv
    exact parse_cons_aftertouch c v hv.1 hv.2 rest
  | pitchwheel c p =>
    simp only [valid_msg, decide_eq_true_eq] at hv
    have hp1 := hv.2.1
    have hp2 := hv.2.2
    have hd1 : (p + 8192).toNat % 128 ≤ 127 := by omega
    have hd2 : (p + 8192).toNat / 128 ≤ 127 := by omega
    rw [MidiMessage.bytes, List.cons_append, List.cons_append, List.cons_append,
      List.nil_append,
      parse_cons_pitchwheel c ((p + 8192).toNat % 128) ((p + 8192).toNat / 128)
        hv.1 hd1 hd2 rest]
    have hp : (((p + 8192).toNat % 128 + 128 * ((p + 8192).toNat / 128) : Nat) : Int) - 8192
        = p := by omega
    rw [hp]
  | sysex d => simp [is_sysex] at hs
  | clock => exact parse_cons_clock rest
  | start => exact parse_cons_start rest
  | cont => exact parse_cons_cont rest
  | stop => exact parse_cons_stop rest
  | active_sensing => exact parse_cons_active_sensing rest

/-- A strict byte-prefix of a valid non-SysEx message is an incomplete
trailing message: the decoder hits an insufficient-bytes `break` (or the end
of the buffer) and returns no message for it. -/
lemma parse_truncated (m : MidiMessage) (hv : valid_msg m = true) (hs : is_sysex m = false)
    (j : Nat) (hj : j < m.bytes.length) :
    parse_midi_bytes (m.bytes.take j) = some [] := by
  cases m with
  | note_off c n v =>
    simp only [valid_msg, decide_eq_true_eq] at hv
    simp only [MidiMessage.bytes, List.length_cons, List.length_nil] at hj
    interval_cases j
    · simp [parse_midi_bytes]
    · show parse_midi_bytes [0x80 + c] = some []
      rw [parse_midi_bytes.eq_def]
      simp only [if_pos (show 0x80 ≤ 0x80 + c ∧ 0x80 + c ≤ 0x8F by omega)]
    · show parse_midi_bytes [0x80 + c, n] = some []
      rw [parse_midi_bytes.eq_def]
      simp only [if_pos (show 0x80 ≤ 0x80 + c ∧ 0x80 + c ≤ 0x8F by omega)]
  | note_on c n v =>
    simp only [valid_msg, decide_eq_true_eq] at hv
    simp only [MidiMessage.bytes, List.length_cons, List.length_nil] at hj
    interval_cases j
    · simp [parse_midi_bytes]
    · show parse_midi_bytes [0x90 + c] = some []
      rw [parse_midi_bytes.eq_def]
      simp only [if_neg (show ¬ (0x80 ≤ 0x90 + c ∧ 0x90 + c ≤ 0x8F) by omega),
        if_pos (show 0x90 ≤ 0x90 + c ∧ 0x90 + c ≤ 0x9F by omega)]
    · show parse_midi_bytes [0x90 + c, n] = some []
      rw [parse_midi_bytes.eq_def]
      simp only [if_neg (show ¬ (0x80 ≤ 0x90 + c ∧ 0x90 + c ≤ 0x8F) by omega),
        if_pos (show 0x90 ≤ 0x90 + c ∧ 0x90 + c ≤ 0x9F by omega)]
  | polytouch c n v =>
    simp only [valid_msg, decide_eq_true_eq] at hv
    simp only [MidiMessage.bytes, List.length_cons, List.length_nil] at hj
    interval_cases j
    · simp [parse_midi_bytes]
    · show parse_midi_bytes [0xA0 + c] = some []
      rw [parse_midi_bytes.eq_def]
      simp only [if_neg (show ¬ (0x80 ≤ 0xA0 + c ∧ 0xA0 + c ≤ 0x8F) by omega),
        if_neg (show ¬ (0x90 ≤ 0xA0 + c ∧ 0xA0 + c ≤ 0x9F) by omega),
        if_pos (show 0xA0 ≤ 0xA0 + c ∧ 0xA0 + c ≤ 0xAF by omega)]
    · show parse_midi_bytes [0xA0 + c, n] = some []
      rw [parse_midi_bytes.eq_def]
      simp only [if_neg (show ¬ (0x80 ≤ 0xA0 + c ∧ 0xA0 + c ≤ 0x8F) by omega),
        if_neg (show ¬ (0x90 ≤ 0xA0 + c ∧ 0xA0 + c ≤ 0x9F) by omega),
        if_pos (show 0xA0 ≤ 0xA0 + c ∧ 0xA0 + c ≤ 0xAF by omega)]
  | control_change c k v =>
    simp only [valid_msg, decide_eq_true_eq] at hv
    simp only [MidiMessage.bytes, List.length_cons, List.length_nil] at hj
    interval_cases j
    · simp [parse_midi_bytes]
    · show parse_midi_bytes [0xB0 + c] = some []
      rw [parse_midi_bytes.eq_def]
      simp only [if_neg (show ¬ (0x80 ≤ 0xB0 + c ∧ 0xB0 + c ≤ 0x8F) by omega),
        if_neg (show ¬ (0x90 ≤ 0xB0 + c ∧ 0xB0 + c ≤ 0x9F) by omega),
        if_neg (show ¬ (0xA0 ≤ 0xB0 + c ∧ 0xB0 + c ≤ 0xAF) by omega),
        if_pos (show 0xB0 ≤ 0xB0 + c ∧ 0xB0 + c ≤ 0xBF by omega)]
    · show parse_midi_bytes [0xB0 + c, k] = some []
      rw [parse_midi_bytes.eq_def]
      simp only [if_neg (show ¬ (0x80 ≤ 0xB0 + c ∧ 0xB0 + c ≤ 0x8F) by omega),
        if_neg (show ¬ (0x90 ≤ 0xB0 + c ∧ 0xB0 + c ≤ 0x9F) by omega),
        if_neg (show ¬ (0xA0 ≤ 0xB0 + c ∧ 0xB0 + c ≤ 0xAF) by omega),
        if_pos (show 0xB0 ≤ 0xB0 + c ∧ 0xB0 + c ≤ 0xBF by omega)]
  | program_change c p =>
    simp only [valid_msg, decide_eq_true_eq] at hv
    simp only [MidiMessage.bytes, List.length_cons, List.length_nil] at hj
    interval_cases j
    · simp [parse_midi_bytes]
    · show parse_midi_bytes [0xC0 + c] = some []
      rw [parse_midi_bytes.eq_def]
      simp only [if_neg (show ¬ (0x80 ≤ 0xC0 + c ∧ 0xC0 + c ≤ 0x8F) by omega),
        if_neg (show ¬ (0x90 ≤ 0xC0 + c ∧ 0xC0 + c ≤ 0x9F) by omega),
        if_neg (show ¬ (0xA0 ≤ 0xC0 + c ∧ 0xC0 + c ≤ 0xAF) by omega),
        if_neg (show ¬ (0xB0 ≤ 0xC0 + c ∧ 0xC0 + c ≤ 0xBF) by omega),
        if_pos (show 0xC0 ≤ 0xC0 + c ∧ 0xC0 + c ≤ 0xCF by omega)]
  | aftertouch c v =>
    simp only [valid_msg, decide_eq_true_eq] at hv
    simp only [MidiMessage.bytes, List.length_cons, List.length_nil] at hj
    interval_cases j
    · simp [parse_midi_bytes]
    · show parse_midi_bytes [0xD0 + c] = some []
      rw [parse_midi_bytes.eq_def]
      simp only [if_neg (show ¬ (0x80 ≤ 0xD0 + c ∧ 0xD0 + c ≤ 0x8F) by omega),
        if_neg (show ¬ (0x90 ≤ 0xD0 + c ∧ 0xD0 + c ≤ 0x9F) by omega),
        if_neg (show ¬ (0xA0 ≤ 0xD0 + c ∧ 0xD0 + c ≤ 0xAF) by omega),
        if_neg (show ¬ (0xB0 ≤ 0xD0 + c ∧ 0xD0 + c ≤ 0xBF) by omega),
        if_neg (show ¬ (0xC0 ≤ 0xD0 + c ∧ 0xD0 + c ≤ 0xCF) by omega),
        if_pos (show 0xD0 ≤ 0xD0 + c ∧ 0xD0 + c ≤ 0xDF by omega)]
  | pitchwheel c p =>
    simp only [valid_msg, decide_eq_true_eq] at hv
    simp only [MidiMessage.bytes, List.length_cons, List.length_nil] at hj
    interval_cases j
    · simp [parse_midi_bytes]
    · show parse_midi_bytes [0xE0 + c] = some []
      rw [parse_midi_bytes.eq_def]
      simp only [if_neg (show ¬ (0x80 ≤ 0xE0 + c ∧ 0xE0 + c ≤ 0x8F) by omega),
        if_neg (show ¬ (0x90 ≤ 0xE0 + c ∧ 0xE0 + c ≤ 0x9F) by omega),
        if_neg (show ¬ (0xA0 ≤ 0xE0 + c ∧ 0xE0 + c ≤ 0xAF) by omega),
        if_neg (show ¬ (0xB0 ≤ 0xE0 + c ∧ 0xE0 + c ≤ 0xBF) by omega),
        if_neg (show ¬ (0xC0 ≤ 0xE0 + c ∧ 0xE0 + c ≤ 0xCF) by omega),
        if_neg (show ¬ (0xD0 ≤ 0xE0 + c ∧ 0xE0 + c ≤ 0xDF) by omega),
        if_pos (show 0xE0 ≤ 0xE0 + c ∧ 0xE0 + c ≤ 0xEF by omega)]
    · show parse_midi_bytes [0xE0 + c, (p + 8192).toNat % 128] = some []
      rw [parse_midi_bytes.eq_def]
      simp only [if_neg (show ¬ (0x80 ≤ 0xE0 + c ∧ 0xE0 + c ≤ 0x8F) by omega),
        if_neg (show ¬ (0x90 ≤ 0xE0 + c ∧ 0xE0 + c ≤ 0x9F) by omega),
        if_neg (show ¬ (0xA0 ≤ 0xE0 + c ∧ 0xE0 + c ≤ 0xAF) by omega),
        if_neg (show ¬ (0xB0 ≤ 0xE0 + c ∧ 0xE0 + c ≤ 0xBF) by omega),
        if_neg (show ¬ (0xC0 ≤ 0xE0 + c ∧ 0xE0 + c ≤ 0xCF) by omega),
        if_neg (show ¬ (0xD0 ≤ 0xE0 + c ∧ 0xE0 + c ≤ 0xDF) by omega),
        if_pos (show 0xE0 ≤ 0xE0 + c ∧ 0xE0 + c ≤ 0xEF by omega)]
  | sysex d => simp [is_sysex] at hs
  | clock => simp only [MidiMessage.bytes, List.length] at hj; interval_cases j; simp [parse_midi_bytes]
  | start => simp only [MidiMessage.bytes, List.length] at hj; interval_cases j; simp [parse_midi_bytes]
  | cont => simp only [MidiMessage.bytes, List.length] at hj; interval_cases j; simp [parse_midi_bytes]
  | stop => simp only [MidiMessage.bytes, List.length] at hj; interval_cases j; simp [parse_midi_bytes]
  | active_sensing =>
    simp only [MidiMessage.bytes, List.length] at hj; interval_cases j; simp [parse_midi_bytes]

/-- Decoding a run of canonically encoded valid non-SysEx messages followed
by any remainder decodes the run in source order, then the remainder. -/
lemma parse_join (ms : List MidiMessage)
    (h : ∀ m ∈ ms, valid_msg m = true ∧ is_sysex m = false) (tail : List Nat) :
    parse_midi_bytes ((ms.map MidiMessage.bytes).flatten ++ tail) =
      (parse_midi_bytes tail).map (ms ++ ·) := by
  induction ms with
  | nil =>
    simp only [List.map_nil, List.flatten_nil, List.nil_append]
    cases parse_midi_bytes tail <;> simp
  | cons m ms ih =>
    have hm := h m (by simp)
    have hms : ∀ x ∈ ms, valid_msg x = true ∧ is_sysex x = false := by
      intro x hx
      exact h x (by simp [hx])
    rw [List.map_cons, List.flatten_cons, List.append_assoc,
      parse_cons_valid m hm.1 hm.2 _, ih hms]
    cases parse_midi_bytes tail <;> simp

lemma nucleus_step_counts (S : BridgeState) (m : MidiMessage) (tc tm : ℚ) :
    (nucleus_step S m tc tm).1.rx_count = S.rx_count + 1 ∧
    (nucleus_step S m tc tm).1.tx_count = S.tx_count := by
  simp only [nucleus_step]
  split_ifs <;> simp

lemma nucleus_loop_counts (msgs : List MidiMessage) :
    ∀ (S : BridgeState) (ts : List (ℚ × ℚ)),
      (nucleus_loop S msgs ts).1.rx_count = S.rx_count + msgs.length ∧
      (nucleus_loop S msgs ts).1.tx_count = S.tx_count := by
  induction msgs with
  | nil => intro S ts; simp [nucleus_loop]
  | cons m ms ih =>
    intro S ts
    simp only [nucleus_loop]
    have h1 := nucleus_step_counts S m (ts.headD (0, 0)).1 (ts.headD (0, 0)).2
    have h2 := ih (nucleus_step S m (ts.headD (0, 0)).1 (ts.headD (0, 0)).2).1 ts.tail
    refine ⟨?_, ?_⟩
    · rw [h2.1, h1.1, List.length_cons]
      omega
    · rw [h2.2, h1.2]

/-! ### Claim theorems -/

/-- C1: for every representable (valid) non-SysEx message, encoding the
messages decoded from its canonical byte sequence reproduces those bytes
exactly: `encode (decode bytes) = bytes`, where decode is
`parse_midi_bytes` and encode is the `mido` serialization used when
forwarding toward multicast. -/
theorem C1_encode_decode_roundtrip (m : MidiMessage) (hv : valid_msg m = true)
    (hs : is_sysex m = false) :
    (parse_midi_bytes m.bytes).map (fun msgs => (msgs.map MidiMessage.bytes).flatten)
      = some m.bytes := by
  have h := parse_cons_valid m hv hs []
  rw [List.append_nil] at h
  have hnil : parse_midi_bytes ([] : List Nat) = some [] := by simp [parse_midi_bytes]
  rw [h, hnil]
  simp

/-- Witness for C1 at the NoteOn message (channel 0, note 60, velocity 100). -/
theorem C1_witness :
    valid_msg (.note_on 0 60 100) = true ∧ is_sysex (.note_on 0 60 100) = false ∧
    (parse_midi_bytes (MidiMessage.note_on 0 60 100).bytes).map
        (fun msgs => (msgs.map MidiMessage.bytes).flatten)
      = some (MidiMessage.note_on 0 60 100).bytes :=
  ⟨by decide, by decide,
    C1_encode_decode_roundtrip (.note_on 0 60 100) (by decide) (by decide)⟩

/-- C2 (amended): the decoder is total, returns exactly the canonically
encoded messages fully contained in the buffer while silently dropping a
trailing partial message, and skips an unrecognized status byte one byte at
a time — but decoding does not succeed on every byte buffer: an
out-of-range data byte inside a recognized message makes the mido message
constructor raise (see the counterexample). -/
theorem C2_truncation_and_skip :
    (∀ (b : Nat) (rest : List Nat), recognized_status b = false →
      parse_midi_bytes (b :: rest) = parse_midi_bytes rest) ∧
    (∀ (ms : List MidiMessage) (m : MidiMessage) (j : Nat),
      (∀ x ∈ ms, valid_msg x = true ∧ is_sysex x = false) →
      valid_msg m = true → is_sysex m = false → j < m.bytes.length →
      parse_midi_bytes ((ms.map MidiMessage.bytes).flatten ++ m.bytes.take j) = some ms) := by
  constructor
  · intro b rest hb
    exact parse_skip b hb rest
  · intro ms m j hms hv hs hj
    rw [parse_join ms hms _, parse_truncated m hv hs j hj]
    simp

/-- Witness for C2's amended statement: an unrecognized status byte 0x55 is
skipped, and a NoteOn encoding followed by the first two bytes of a NoteOff
encoding decodes to exactly the NoteOn. -/
theorem C2_witness :
    (recognized_status 0x55 = false ∧
      parse_midi_bytes (0x55 :: [0x90, 60, 100]) = parse_midi_bytes [0x90, 60, 100]) ∧
    ((∀ x ∈ [MidiMessage.note_on 0 60 100], valid_msg x = true ∧ is_sysex x = false) ∧
      valid_msg (MidiMessage.note_off 0 62 0) = true ∧
      is_sysex (MidiMessage.note_off 0 62 0) = false ∧
      2 < (MidiMessage.note_off 0 62 0).bytes.length ∧
      parse_midi_bytes (([MidiMessage.note_on 0 60 100].map MidiMessage.bytes).flatten
          ++ (MidiMessage.note_off 0 62 0).bytes.take 2)
        = some [MidiMessage.note_on 0 60 100]) :=
  ⟨⟨by decide, C2_truncation_and_skip.1 0x55 [0x90, 60, 100] (by decide)⟩,
    ⟨by decide, by decide, by decide, by decide,
      C2_truncation_and_skip.2 [MidiMessage.note_on 0 60 100] (MidiMessage.note_off 0 62 0) 2
        (by decide) (by decide) (by decide) (by decide)⟩⟩

/-- C2 (counterexample to the claim as stated): the decoder does not return
normally on every input byte buffer.  On `[0x90, 200, 1]` the code reaches
`Message('note_on', channel=0, note=200, velocity=1)` and mido's
constructor raises `ValueError` (note out of range), modelled as `none`. -/
theorem C2_counterexample : parse_midi_bytes [0x90, 200, 1] = none := by
  simp [parse_midi_bytes]

/-- C7: a buffer of consecutive complete NoteOn encodings decodes to
exactly those messages, in buffer order, with matching channel, note and
velocity; a NoteOn encoding with velocity 0 decodes to NoteOff. -/
theorem C7_noteon_runs (l : List (Nat × Nat × Nat))
    (h : ∀ t ∈ l, t.1 ≤ 15 ∧ t.2.1 ≤ 127 ∧ t.2.2 ≤ 127) :
    parse_midi_bytes (l.map (fun t => [0x90 + t.1, t.2.1, t.2.2])).flatten =
      some (l.map (fun t =>
        if t.2.2 = 0 then MidiMessage.note_off t.1 t.2.1 0
        else MidiMessage.note_on t.1 t.2.1 t.2.2)) := by
  induction l with
  | nil => simp [parse_midi_bytes]
  | cons t l ih =>
    have ht := h t (by simp)
    have hl : ∀ x ∈ l, x.1 ≤ 15 ∧ x.2.1 ≤ 127 ∧ x.2.2 ≤ 127 := by
      intro x hx
      exact h x (by simp [hx])
    rw [List.map_cons, List.flatten_cons]
    simp only [List.cons_append, List.nil_append]
    rw [parse_cons_note_on t.1 t.2.1 t.2.2 ht.1 ht.2.1 ht.2.2 _, ih hl]
    simp

/-- Witness for C7: two NoteOn encodings, the second with velocity 0,
decode to a NoteOn followed by a NoteOff. -/
theorem C7_witness :
    (∀ t ∈ [((0 : Nat), (60 : Nat), (100 : Nat)), (1, 61, 0)],
      t.1 ≤ 15 ∧ t.2.1 ≤ 127 ∧ t.2.2 ≤ 127) ∧
    parse_midi_bytes
        ([((0 : Nat), (60 : Nat), (100 : Nat)), (1, 61, 0)].map
          (fun t => [0x90 + t.1, t.2.1, t.2.2])).flatten =
      some [MidiMessage.note_on 0 60 100, MidiMessage.note_off 1 61 0] :=
  ⟨by decide, C7_noteon_runs [(0, 60, 100), (1, 61, 0)] (by decide)⟩

/-- C4 (counterexample to the claim as stated): the key excludes the
velocity for NoteOff — two NoteOff messages that differ only in velocity
get the same MessageIdentity, so the NoteOff key does not comprise the
velocity. -/
theorem C4_counterexample :
    msg_key (.note_off 0 60 100) = msg_key (.note_off 0 60 1) ∧
    msg_key (.note_off 0 60 100) = some (.note_off 0 60) ∧ (100 : Nat) ≠ 1 := by
  decide

/-- C4 (amended): the MessageIdentity excludes the pitch value for
PitchBend, excludes the velocity for NoteOff, and excludes nothing for
NoteOn (type, channel, note, velocity) and ControlChange (type, channel,
control, value). -/
theorem C4_amended (c n v k val : Nat) (p : Int) :
    msg_key (.note_on c n v) = some (.note_on c n v) ∧
    msg_key (.note_off c n v) = some (.note_off c n) ∧
    msg_key (.control_change c k val) = some (.cc c k val) ∧
    msg_key (.pitchwheel c p) = some (.pitch c) :=
  ⟨rfl, rfl, rfl, rfl⟩

/-- C5 (counterexample to the claim as stated): the code truncates with
`int()`, it does not round.  At pitch 0 the code produces ControlChange
value 63 while `round(((0 + 8192) / 16383) * 127) = 64`. -/
theorem C5_counterexample :
    translate_to_cc (.pitchwheel 0 0) = .control_change 0 1 63 ∧
    (round ((((0 : Int) : ℚ) + 8192) / 16383 * 127) : ℤ) = 64 ∧
    translate_to_cc (.pitchwheel 0 0)
      ≠ .control_change 0 1 (round ((((0 : Int) : ℚ) + 8192) / 16383 * 127)).toNat := by
  have h1 : pyTrunc ((((0 : Int) : ℚ) + 8192) / 16383 * 127) = 63 := by
    rw [pyTrunc_eq_floor _ (by norm_num)]
    norm_num
  have h2 : translate_to_cc (.pitchwheel 0 0) = .control_change 0 1 63 := by
    simp only [translate_to_cc, dict_lookup, FADER_CC_MAP, if_pos rfl, h1]
    rfl
  have h3 : (round ((((0 : Int) : ℚ) + 8192) / 16383 * 127) : ℤ) = 64 := by
    norm_num [round_eq]
  refine ⟨h2, h3, ?_⟩
  rw [h2, h3]
  decide

/-- C5 (amended): for a PitchBend on a mapped fader channel the translator
returns a ControlChange on channel 0 with the mapped controller number and
value `int(((pitch + 8192) / 16383) × 127)` — truncation (equal to floor on
this non-negative quantity), not rounding — clamped to [0,127]; every
message not matching (other types, or PitchBend on an unmapped channel) is
returned unchanged. -/
theorem C5_amended (c : Nat) (p : Int) (cc : Nat)
    (hcc : dict_lookup c FADER_CC_MAP = some cc) (h1 : -8192 ≤ p) (h2 : p ≤ 8191) :
    translate_to_cc (.pitchwheel c p) =
      .control_change 0 cc (max 0 (min 127 ⌊((p : ℚ) + 8192) / 16383 * 127⌋)).toNat ∧
    (∀ m : MidiMessage, is_pitchwheel m = false → translate_to_cc m = m) ∧
    (∀ (c2 : Nat) (p2 : Int), dict_lookup c2 FADER_CC_MAP = none →
      translate_to_cc (.pitchwheel c2 p2) = .pitchwheel c2 p2) := by
  refine ⟨?_, ?_, ?_⟩
  · have hq : (0 : ℚ) ≤ ((p : ℚ) + 8192) / 16383 * 127 := by
      have hp : (-8192 : ℚ) ≤ (p : ℚ) := by exact_mod_cast h1
      have : (0 : ℚ) ≤ (p : ℚ) + 8192 := by linarith
      positivity
    simp only [translate_to_cc, hcc, pyTrunc_eq_floor _ hq]
  · intro m hm
    cases m <;> simp_all [is_pitchwheel, translate_to_cc]
  · intro c2 p2 hnone
    simp only [translate_to_cc, hnone]

/-- Witness for C5's amended statement at channel 0, pitch 0 (mapped to
controller 1). -/
theorem C5_witness :
    dict_lookup 0 FADER_CC_MAP = some 1 ∧ (-8192 : Int) ≤ 0 ∧ (0 : Int) ≤ 8191 ∧
    translate_to_cc (.pitchwheel 0 0) =
      .control_change 0 1 (max 0 (min 127 ⌊(((0 : Int) : ℚ) + 8192) / 16383 * 127⌋)).toNat :=
  ⟨by decide, by decide, by decide,
    (C5_amended 0 0 1 (by decide) (by decide) (by decide)).1⟩

/-- C6: a ControlChange whose controller number is mapped (1-9) translates
back to a PitchBend on the corresponding channel with
`pitch = floor((value / 127) × 16383) − 8192` (the code's `int()` equals
floor on this non-negative quantity), and the four boundary values hold. -/
theorem C6_reverse_translation (c k v : Nat) (hk1 : 1 ≤ k) (hk9 : k ≤ 9) (hv : v ≤ 127) :
    translate_from_cc (.control_change c k v) =
      .pitchwheel (k - 1) (⌊(v : ℚ) / 127 * 16383⌋ - 8192) ∧
    translate_to_cc (.pitchwheel 0 (-8192)) = .control_change 0 1 0 ∧
    translate_to_cc (.pitchwheel 0 8191) = .control_change 0 1 127 ∧
    translate_from_cc (.control_change 0 1 0) = .pitchwheel 0 (-8192) ∧
    translate_from_cc (.control_change 0 1 127) = .pitchwheel 0 8191 := by
  have hq : (0 : ℚ) ≤ (v : ℚ) / 127 * 16383 := by positivity
  have hpt := pyTrunc_eq_floor _ hq
  refine ⟨?_, ?_, ?_, ?_, ?_⟩
  · interval_cases k <;> simp [translate_from_cc, FADER_CC_MAP, hpt, List.find?]
  · have h1 : pyTrunc ((((-8192 : Int) : ℚ) + 8192) / 16383 * 127) = 0 := by
      rw [pyTrunc_eq_floor _ (by norm_num)]
      norm_num
    simp only [translate_to_cc, dict_lookup, FADER_CC_MAP, if_pos rfl, h1]
    rfl
  · have h1 : pyTrunc ((((8191 : Int) : ℚ) + 8192) / 16383 * 127) = 127 := by
      rw [pyTrunc_eq_floor _ (by norm_num)]
      norm_num
    simp only [translate_to_cc, dict_lookup, FADER_CC_MAP, if_pos rfl, h1]
    rfl
  · simp only [translate_from_cc, FADER_CC_MAP, List.find?]
    norm_num
    rw [pyTrunc_eq_floor _ (by norm_num)]
    norm_num
  · simp only [translate_from_cc, FADER_CC_MAP, List.find?]
    norm_num
    rw [pyTrunc_eq_floor _ (by norm_num)]
    norm_num

/-- Witness for C6 at controller 1, value 64. -/
theorem C6_witness :
    (1 : Nat) ≤ 1 ∧ (1 : Nat) ≤ 9 ∧ (64 : Nat) ≤ 127 ∧
    translate_from_cc (.control_change 0 1 64) =
      .pitchwheel (1 - 1) (⌊((64 : Nat) : ℚ) / 127 * 16383⌋ - 8192) :=
  ⟨by decide, by decide, by decide,
    (C6_reverse_translation 0 1 64 (by decide) (by decide) (by decide)).1⟩

/-- C3: echo-suppression round trip, in both directions.  After a message M
is forwarded from one side to the other (marking its identity with the send
timestamp `t0m`), a message M2 with the same MessageIdentity attempted in
the opposite direction strictly within the 50 ms debounce window is dropped
— not forwarded and not re-marked (both EchoRecords unchanged) — while one
attempted after the window has elapsed is forwarded. -/
theorem C3_echo_round_trip (S : BridgeState) (M M2 : MidiMessage) (k : MsgKey)
    (t0c t0m t1c t1m : ℚ)
    (hout : S.midi_out = true)
    (hk : msg_key M = some k) (hk2 : msg_key M2 = some k)
    (hfresh_n : dict_lookup k S.recent_to_nucleus = none)
    (hfresh_d : dict_lookup k S.recent_to_daw = none) :
    ((nucleus_step S M t0c t0m).2 = some M ∧
      (t1c - t0m < debounce_time →
        (handle_from_daw (nucleus_step S M t0c t0m).1 M2 t1c t1m).2 = [] ∧
        (handle_from_daw (nucleus_step S M t0c t0m).1 M2 t1c t1m).1.recent_to_daw
          = (nucleus_step S M t0c t0m).1.recent_to_daw ∧
        (handle_from_daw (nucleus_step S M t0c t0m).1 M2 t1c t1m).1.recent_to_nucleus
          = (nucleus_step S M t0c t0m).1.recent_to_nucleus) ∧
      (¬ t1c - t0m < debounce_time →
        (handle_from_daw (nucleus_step S M t0c t0m).1 M2 t1c t1m).2
          = List.replicate S.senders M2.bytes)) ∧
    ((handle_from_daw S M t0c t0m).2 = List.replicate S.senders M.bytes ∧
      (t1c - t0m < debounce_time →
        (nucleus_step (handle_from_daw S M t0c t0m).1 M2 t1c t1m).2 = none ∧
        (nucleus_step (handle_from_daw S M t0c t0m).1 M2 t1c t1m).1.recent_to_daw
          = (handle_from_daw S M t0c t0m).1.recent_to_daw ∧
        (nucleus_step (handle_from_daw S M t0c t0m).1 M2 t1c t1m).1.recent_to_nucleus
          = (handle_from_daw S M t0c t0m).1.recent_to_nucleus) ∧
      (¬ t1c - t0m < debounce_time →
        (nucleus_step (handle_from_daw S M t0c t0m).1 M2 t1c t1m).2 = some M2)) := by
  have hech_n : is_echo M S.recent_to_nucleus t0c = false := by
    simp [is_echo, hk, hfresh_n]
  have hech_d : is_echo M S.recent_to_daw t0c = false := by
    simp [is_echo, hk, hfresh_d]
  constructor
  · -- Nucleus → DAW first, then DAW → Nucleus attempt
    have h1rd : (nucleus_step S M t0c t0m).1.recent_to_daw = (k, t0m) :: S.recent_to_daw := by
      simp [nucleus_step, hech_n, hout, TRANSLATE_TO_CC, mark_sent, hk]
    have h1send : (nucleus_step S M t0c t0m).1.senders = S.senders := by
      simp [nucleus_step, hech_n, hout, TRANSLATE_TO_CC]
    refine ⟨?_, ?_, ?_⟩
    · simp [nucleus_step, hech_n, hout, TRANSLATE_TO_CC]
    · intro hwin
      have hecho2 : is_echo M2 (nucleus_step S M t0c t0m).1.recent_to_daw t1c = true := by
        simp [is_echo, hk2, h1rd, dict_lookup, hwin]
      refine ⟨?_, ?_, ?_⟩ <;> simp [handle_from_daw, hecho2]
    · intro hafter
      have hecho2 : is_echo M2 (nucleus_step S M t0c t0m).1.recent_to_daw t1c = false := by
        simp [is_echo, hk2, h1rd, dict_lookup, hafter]
      simp [handle_from_daw, hecho2, TRANSLATE_TO_CC, h1send]
  · -- DAW → Nucleus first, then Nucleus → DAW attempt
    have h1rn : (handle_from_daw S M t0c t0m).1.recent_to_nucleus
        = (k, t0m) :: S.recent_to_nucleus := by
      simp [handle_from_daw, hech_d, TRANSLATE_TO_CC, mark_sent, hk]
    have h1out : (handle_from_daw S M t0c t0m).1.midi_out = true := by
      simp [handle_from_daw, hech_d, TRANSLATE_TO_CC, hout]
    refine ⟨?_, ?_, ?_⟩
    · simp [handle_from_daw, hech_d, TRANSLATE_TO_CC]
    · intro hwin
      have hecho2 : is_echo M2 (handle_from_daw S M t0c t0m).1.recent_to_nucleus t1c
          = true := by
        simp [is_echo, hk2, h1rn, dict_lookup, hwin]
      refine ⟨?_, ?_, ?_⟩ <;> simp [nucleus_step, hecho2]
    · intro hafter
      have hecho2 : is_echo M2 (handle_from_daw S M t0c t0m).1.recent_to_nucleus t1c
          = false := by
        simp [is_echo, hk2, h1rn, dict_lookup, hafter]
      simp [nucleus_step, hecho2, TRANSLATE_TO_CC, h1out]

/-- Witness for C3: from the empty-record start state, a NoteOn forwarded
from the Nucleus side at time 0 is emitted, and the identical message
arriving back from the DAW side 10 ms later (within the 50 ms window) is
dropped. -/
theorem C3_witness :
    msg_key (.note_on 0 60 100) = some (.note_on 0 60 100) ∧
    dict_lookup (MsgKey.note_on 0 60 100) ([] : EchoRecord) = none ∧
    (1 : ℚ) / 100 - 0 < debounce_time ∧
    (nucleus_step ⟨[], [], 0, 0, true, 3⟩ (.note_on 0 60 100) 0 0).2
      = some (.note_on 0 60 100) ∧
    (handle_from_daw (nucleus_step ⟨[], [], 0, 0, true, 3⟩ (.note_on 0 60 100) 0 0).1
        (.note_on 0 60 100) (1 / 100) (1 / 100)).2 = [] := by
  have H := C3_echo_round_trip ⟨[], [], 0, 0, true, 3⟩ (.note_on 0 60 100)
    (.note_on 0 60 100) (.note_on 0 60 100) 0 0 (1 / 100) (1 / 100) rfl rfl rfl rfl rfl
  exact ⟨rfl, rfl, by norm_num [debounce_time], H.1.1,
    (H.1.2.1 (by norm_num [debounce_time])).1⟩

/-- C8: the counters are monotonically non-decreasing and count observed
traffic: a datagram from the Nucleus increments `rx_count` by exactly the
number of decoded messages (regardless of echo suppression, and by zero
when decoding raises), and each message drained from the virtual port
increments `tx_count` by exactly one (again regardless of whether it is
then suppressed). -/
theorem C8_counters (S : BridgeState) (data : List Nat) (ts : List (ℚ × ℚ))
    (m : MidiMessage) (tc tm : ℚ) :
    (handle_from_nucleus S data ts).1.rx_count
      = S.rx_count + ((parse_midi_bytes data).map List.length).getD 0 ∧
    (handle_from_nucleus S data ts).1.tx_count = S.tx_count ∧
    S.rx_count ≤ (handle_from_nucleus S data ts).1.rx_count ∧
    (handle_from_daw S m tc tm).1.tx_count = S.tx_count + 1 ∧
    (handle_from_daw S m tc tm).1.rx_count = S.rx_count ∧
    S.tx_count ≤ (handle_from_daw S m tc tm).1.tx_count := by
  have hdaw : (handle_from_daw S m tc tm).1.tx_count = S.tx_count + 1 ∧
      (handle_from_daw S m tc tm).1.rx_count = S.rx_count := by
    simp only [handle_from_daw]
    split_ifs <;> simp
  have hnuc : (handle_from_nucleus S data ts).1.rx_count
        = S.rx_count + ((parse_midi_bytes data).map List.length).getD 0 ∧
      (handle_from_nucleus S data ts).1.tx_count = S.tx_count := by
    unfold handle_from_nucleus
    cases hp : parse_midi_bytes data with
    | none => simp
    | some msgs =>
      have := nucleus_loop_counts msgs S ts
      simp [this.1, this.2]
  refine ⟨hnuc.1, hnuc.2, ?_, hdaw.1, hdaw.2, ?_⟩
  · rw [hnuc.1]
    omega
  · rw [hdaw.1]
    omega

/-- C9: every message drained from the virtual port that is not suppressed
as an echo is transmitted exactly once, encoded, on every configured send
socket. -/
theorem C9_fanout (S : BridgeState) (m : MidiMessage) (tc tm : ℚ)
    (h : is_echo m S.recent_to_daw tc = false) :
    (handle_from_daw S m tc tm).2 = List.replicate S.senders m.bytes := by
  simp [handle_from_daw, h, TRANSLATE_TO_CC]

/-- Witness for C9: with three configured senders, one NoteOn from the DAW
produces exactly three transmissions of its encoding. -/
theorem C9_witness :
    is_echo (.note_on 0 60 100)
        (⟨[], [], 0, 0, true, 3⟩ : BridgeState).recent_to_daw 0 = false ∧
    (handle_from_daw ⟨[], [], 0, 0, true, 3⟩ (.note_on 0 60 100) 0 0).2
      = List.replicate 3 (MidiMessage.note_on 0 60 100).bytes :=
  ⟨rfl, C9_fanout ⟨[], [], 0, 0, true, 3⟩ (.note_on 0 60 100) 0 0 rfl⟩

/-- C10: a message of any type other than NoteOn, NoteOff, ControlChange
and PitchBend has no MessageIdentity (`msg_key` is `none`); for such a
message `is_echo` is false against every record and every time, `mark_sent`
leaves any EchoRecord unchanged, and the message is always forwarded:
`handle_from_daw` transmits it on every sender with both EchoRecords
untouched, and `nucleus_step` emits it to the (open) virtual port. -/
theorem C10_keyless_never_suppressed (m : MidiMessage) (h : keyless_type m = true) :
    msg_key m = none ∧
    (∀ (rd : EchoRecord) (t : ℚ), is_echo m rd t = false) ∧
    (∀ (rd : EchoRecord) (t : ℚ), mark_sent m rd t = rd) ∧
    (∀ (S : BridgeState) (tc tm : ℚ),
      (handle_from_daw S m tc tm).2 = List.replicate S.senders m.bytes ∧
      (handle_from_daw S m tc tm).1.recent_to_daw = S.recent_to_daw ∧
      (handle_from_daw S m tc tm).1.recent_to_nucleus = S.recent_to_nucleus) ∧
    (∀ (S : BridgeState) (tc tm : ℚ), S.midi_out = true →
      (nucleus_step S m tc tm).2 = some m) := by
  have hkey : msg_key m = none := by
    cases m <;> simp_all [keyless_type, msg_key]
  refine ⟨hkey, ?_, ?_, ?_, ?_⟩
  · intro rd t
    simp [is_echo, hkey]
  · intro rd t
    simp [mark_sent, hkey]
  · intro S tc tm
    have he : is_echo m S.recent_to_daw tc = false := by simp [is_echo, hkey]
    refine ⟨?_, ?_, ?_⟩ <;> simp [handle_from_daw, he, TRANSLATE_TO_CC, mark_sent, hkey]
  · intro S tc tm hout
    have he : is_echo m S.recent_to_nucleus tc = false := by simp [is_echo, hkey]
    simp [nucleus_step, he, hout, TRANSLATE_TO_CC]

/-- Witness for C10 at the Clock message. -/
theorem C10_witness :
    keyless_type MidiMessage.clock = true ∧ msg_key MidiMessage.clock = none ∧
    (∀ (rd : EchoRecord) (t : ℚ), is_echo MidiMessage.clock rd t = false) :=
  ⟨rfl, (C10_keyless_never_suppressed MidiMessage.clock rfl).1,
    (C10_keyless_never_suppressed MidiMessage.clock rfl).2.1⟩
